import Mathlib

/-!
Verification of the gocryptotrader exchange-base core: configuration
reconciliation, currency-pair synchronization, credential gating, the
market-data cache wrappers and the best-effort cancel-all path.

Strings from the Go source are modelled as lists of characters so that the
comma join/split normalization used by `UpdatePairs` and the config
serialization can be reasoned about directly.
-/

namespace GCT

/-- Strings are modelled as lists of characters. -/
abbrev Str := List Char

/-- Models `common.StringToUpper` (a `strings.ToUpper` wrapper). -/
def strToUpper (s : Str) : Str := s.map Char.toUpper

/-- Models `common.JoinStrings(l, ",")` (a `strings.Join` wrapper):
`[] ↦ ""`, `[x] ↦ x`, `x :: xs ↦ x ++ "," ++ join xs`. -/
def joinStrings : List Str → Str
  | [] => []
  | [x] => x
  | x :: y :: xs => x ++ ',' :: joinStrings (y :: xs)

/-- Models `common.SplitStrings(s, ",")` (a `strings.Split` wrapper); in
particular `splitOnComma "" = [""]`, matching Go. -/
def splitOnComma : Str → List Str
  | [] => [[]]
  | c :: rest =>
    match splitOnComma rest with
    | [] => [[]]
    | a :: as => if c = ',' then [] :: a :: as else (c :: a) :: as

theorem splitOnComma_ne_nil (s : Str) : splitOnComma s ≠ [] := by
  cases s with
  | nil => simp [splitOnComma]
  | cons c rest =>
    simp only [splitOnComma]
    cases splitOnComma rest with
    | nil => simp
    | cons a as =>
      by_cases h : c = ',' <;> simp [h]

theorem splitOnComma_no_comma (x : Str) (h : ',' ∉ x) : splitOnComma x = [x] := by
  induction x with
  | nil => rfl
  | cons c rest ih =>
    have hc : c ≠ ',' := fun hc => h (by simp [hc])
    have hr : ',' ∉ rest := fun hr => h (List.mem_cons_of_mem _ hr)
    simp [splitOnComma, ih hr, hc]

theorem splitOnComma_append_comma (x r : Str) (h : ',' ∉ x) :
    splitOnComma (x ++ ',' :: r) = x :: splitOnComma r := by
  induction x with
  | nil =>
    simp only [List.nil_append, splitOnComma]
    cases hs : splitOnComma r with
    | nil => exact absurd hs (splitOnComma_ne_nil r)
    | cons a as => simp
  | cons c rest ih =>
    have hc : c ≠ ',' := fun hc => h (by simp [hc])
    have hr : ',' ∉ rest := fun hr => h (List.mem_cons_of_mem _ hr)
    simp only [List.cons_append, splitOnComma, List.append_eq]
    rw [ih hr]
    simp [hc]

/-- On a non-empty list of comma-free strings, splitting the comma join
recovers the original list. -/
theorem splitOnComma_joinStrings (F : List Str) (hF : F ≠ [])
    (hc : ∀ x ∈ F, ',' ∉ x) :
    splitOnComma (joinStrings F) = F := by
  induction F with
  | nil => exact absurd rfl hF
  | cons x xs ih =>
    cases xs with
    | nil =>
      simp only [joinStrings]
      exact splitOnComma_no_comma x (hc x (by simp))
    | cons y ys =>
      have hx : ',' ∉ x := hc x (by simp)
      simp only [joinStrings, splitOnComma_append_comma x _ hx]
      rw [ih (by simp) (fun z hz => hc z (List.mem_cons_of_mem _ hz))]

theorem char_toUpper_comma : Char.toUpper ',' = ',' := by decide

theorem strToUpper_append (a b : Str) :
    strToUpper (a ++ b) = strToUpper a ++ strToUpper b := by
  simp [strToUpper]

/-- Uppercasing the comma join is the comma join of the uppercased parts
(the comma is unaffected by `Char.toUpper`). -/
theorem strToUpper_joinStrings (F : List Str) :
    strToUpper (joinStrings F) = joinStrings (F.map strToUpper) := by
  induction F with
  | nil => rfl
  | cons x xs ih =>
    cases xs with
    | nil => rfl
    | cons y ys =>
      simp only [joinStrings, List.map_cons]
      rw [strToUpper_append]
      have : strToUpper (',' :: joinStrings (y :: ys))
          = ',' :: strToUpper (joinStrings (y :: ys)) := by
        simp [strToUpper, char_toUpper_comma]
      rw [this, ih]
      simp [joinStrings]

theorem char_toUpper_eq_comma {c : Char} (h : c.toUpper = ',') : c = ',' := by
  unfold Char.toUpper at h
  simp only [] at h
  by_cases hr : c.toNat ≥ 97 ∧ c.toNat ≤ 122
  · exfalso
    rw [if_pos hr] at h
    obtain ⟨h1, h2⟩ := hr
    have hvc : Nat.isValidChar (c.toNat - 32) := by
      left
      omega
    have hval : (Char.ofNat (c.toNat - 32)).toNat = c.toNat - 32 := by
      rw [Char.ofNat, dif_pos hvc]
      rfl
    have hv : (Char.ofNat (c.toNat - 32)).toNat = (',' : Char).toNat := congrArg Char.toNat h
    rw [hval] at hv
    have h44 : (',' : Char).toNat = 44 := by decide
    omega
  · rw [if_neg hr] at h
    exact h

theorem strToUpper_no_comma (x : Str) (h : ',' ∉ x) : ',' ∉ strToUpper x := by
  intro hm
  simp only [strToUpper, List.mem_map] at hm
  obtain ⟨c, hc, hup⟩ := hm
  exact h (char_toUpper_eq_comma hup ▸ hc)

/-- The normalization pipeline of `UpdatePairs`
(`SplitStrings(StringToUpper(JoinStrings(F, ",")), ",")`) equals elementwise
uppercasing on non-empty comma-free input. -/
theorem split_upper_join (F : List Str) (hF : F ≠ []) (hc : ∀ x ∈ F, ',' ∉ x) :
    splitOnComma (strToUpper (joinStrings F)) = F.map strToUpper := by
  rw [strToUpper_joinStrings]
  exact splitOnComma_joinStrings _ (by simpa using hF)
    (by
      intro x hx
      simp only [List.mem_map] at hx
      obtain ⟨y, hy, rfl⟩ := hx
      exact strToUpper_no_comma y (hc y hy))

end GCT

namespace PairSync

/-!
Model of the Pair Synchronizer: `(*Base).UpdatePairs` from the exchange base,
acting on the per-(asset class, role) pair stores of the running exchange and
their persisted-config copies.
-/

open GCT

/-- Asset classes handled by the `UpdatePairs` switch. -/
inductive AssetTy where
  | spot
  | futures
deriving DecidableEq

/-- One `exchange.CurrencyPairStore`-like cell: the runtime pair lists for one
asset class. -/
structure PairCell where
  available : List Str
  enabled : List Str
deriving DecidableEq

/-- The persisted-config copy of one asset class's pair lists: comma-joined
strings, as in `config.CurrencyPairConfig`. -/
structure CfgPairCell where
  available : Str
  enabled : Str
deriving DecidableEq

/-- The state touched by `UpdatePairs`: runtime pair stores plus the aliased
persisted-config copies (`e.CurrencyPairs` and `e.Config.CurrencyPairs`). -/
structure PairState where
  spot : PairCell
  futures : PairCell
  cfgSpot : CfgPairCell
  cfgFutures : CfgPairCell
deriving DecidableEq

/-- Modelled from the spec: `pair.FindPairDifferences(currentPairs, newPairs)`
(the `currency/pair` package is not under `src/`): `added = fresh − stored`,
`removed = stored − fresh`. -/
def findPairDifferences (currentPairs newPairs : List Str) : List Str × List Str :=
  (newPairs.filter (fun p => p ∉ currentPairs),
   currentPairs.filter (fun p => p ∉ newPairs))

/-- The stored target list for a given (asset class, role). -/
def targetOf (s : PairState) (assetType : AssetTy) (enabled : Bool) : List Str :=
  match assetType, enabled with
  | .spot, true => s.spot.enabled
  | .spot, false => s.spot.available
  | .futures, true => s.futures.enabled
  | .futures, false => s.futures.available

/-- Replace the stored target list (and its config copy) for a given
(asset class, role) with `products`, joining for the persisted copy. -/
def replaceTarget (s : PairState) (assetType : AssetTy) (enabled : Bool)
    (products : List Str) : PairState :=
  match assetType, enabled with
  | .spot, true =>
    { s with spot := { s.spot with enabled := products },
             cfgSpot := { s.cfgSpot with enabled := joinStrings products } }
  | .spot, false =>
    { s with spot := { s.spot with available := products },
             cfgSpot := { s.cfgSpot with available := joinStrings products } }
  | .futures, true =>
    { s with futures := { s.futures with enabled := products },
             cfgFutures := { s.cfgFutures with enabled := joinStrings products } }
  | .futures, false =>
    { s with futures := { s.futures with available := products },
             cfgFutures := { s.cfgFutures with available := joinStrings products } }

/-- Error message of the empty-product guard in `UpdatePairs`. -/
def emptyProductsMsg : Str := "UpdatePairs error - exchangeProducts is empty".data

/-- Model of `(*Base).UpdatePairs` (exchange.go lines 590-664): guard against
an empty input, normalize by joining on commas, uppercasing and re-splitting,
drop empty entries, diff against the stored set, and replace the stored set
(runtime list and persisted-config string) when forced or when the diff is
non-empty. -/
def updatePairs (s : PairState) (exchangeProducts : List Str)
    (assetType : AssetTy) (enabled force : Bool) : Except Str PairState :=
  if exchangeProducts.length = 0 then
    .error emptyProductsMsg
  else
    let split := splitOnComma (strToUpper (joinStrings exchangeProducts))
    let products := split.filter (fun p => ¬ p = [])
    let targetPairs := targetOf s assetType enabled
    let diffs := findPairDifferences targetPairs products
    if force ∨ diffs.1.length > 0 ∨ diffs.2.length > 0 then
      .ok (replaceTarget s assetType enabled products)
    else
      .ok s

/-- The claim's normalization of a fetched sequence: uppercase every entry and
drop the empty ones (stated from the spec's words, to be compared with the
source's join/uppercase/split pipeline). -/
def normalizedFetch (F : List Str) : List Str :=
  (F.map strToUpper).filter (fun p => ¬ p = [])

theorem filter_split_upper_join (F : List Str) (hF : F ≠ [])
    (hc : ∀ x ∈ F, ',' ∉ x) :
    (splitOnComma (strToUpper (joinStrings F))).filter (fun p => ¬ p = [])
      = normalizedFetch F := by
  rw [split_upper_join F hF hc]
  rfl

/-- Emptiness of both pair differences is exactly membership-equality of the
two lists. -/
theorem findPairDifferences_eq_nil_iff (stored fresh : List Str) :
    (findPairDifferences stored fresh).1 = [] ∧
      (findPairDifferences stored fresh).2 = [] ↔
    (∀ x, x ∈ fresh ↔ x ∈ stored) := by
  simp only [findPairDifferences, List.filter_eq_nil_iff]
  constructor
  · rintro ⟨h1, h2⟩ x
    constructor
    · intro hx
      have hx2 := h1 x hx
      simpa using hx2
    · intro hx
      have hx2 := h2 x hx
      simpa using hx2
  · intro h
    constructor
    · intro x hx
      simpa using (h x).1 hx
    · intro x hx
      simpa using (h x).2 hx

/-- C1: Pair sync convergence. For every stored pair set (per asset class and
role) and every non-empty fetched sequence `F` of comma-free identifiers,
`UpdatePairs` with `force = true` always replaces the stored set with the
normalized `F` (uppercased, empty entries dropped); with `force = false` it
leaves the state untouched when the normalized `F` has the same members as
the stored set and otherwise replaces the stored set (and its persisted
config copy) with the normalized `F`. -/
theorem updatePairs_sync_convergence (s : PairState) (F : List Str)
    (assetType : AssetTy) (enabled : Bool)
    (hF : F ≠ []) (hc : ∀ x ∈ F, ',' ∉ x) :
    updatePairs s F assetType enabled true
        = .ok (replaceTarget s assetType enabled (normalizedFetch F)) ∧
    ((∀ x, x ∈ normalizedFetch F ↔ x ∈ targetOf s assetType enabled) →
      updatePairs s F assetType enabled false = .ok s) ∧
    (¬ (∀ x, x ∈ normalizedFetch F ↔ x ∈ targetOf s assetType enabled) →
      updatePairs s F assetType enabled false
        = .ok (replaceTarget s assetType enabled (normalizedFetch F))) := by
  have hlen : ¬ F.length = 0 := by simpa using hF
  have hprod := filter_split_upper_join F hF hc
  refine ⟨?_, ?_, ?_⟩
  · simp only [updatePairs, if_neg hlen, hprod]
    simp
  · intro hsame
    have hd := (findPairDifferences_eq_nil_iff
      (targetOf s assetType enabled) (normalizedFetch F)).2 hsame
    simp only [updatePairs, if_neg hlen, hprod, hd.1, hd.2]
    simp
  · intro hdiff
    have hd : ¬ ((findPairDifferences (targetOf s assetType enabled)
          (normalizedFetch F)).1 = [] ∧
        (findPairDifferences (targetOf s assetType enabled)
          (normalizedFetch F)).2 = []) :=
      fun hcontra => hdiff ((findPairDifferences_eq_nil_iff _ _).1 hcontra)
    have hpos : (findPairDifferences (targetOf s assetType enabled)
          (normalizedFetch F)).1.length > 0 ∨
        (findPairDifferences (targetOf s assetType enabled)
          (normalizedFetch F)).2.length > 0 := by
      rcases not_and_or.mp hd with h1 | h2
      · exact Or.inl (List.length_pos.mpr h1)
      · exact Or.inr (List.length_pos.mpr h2)
    simp only [updatePairs, if_neg hlen, hprod]
    rw [if_pos (Or.inr hpos)]

/-- Witness for C1 at a concrete input: fetched `["eth", "btc"]` against
stored available-spot `["BTC"]` replaces the set with `["ETH", "BTC"]`,
forced or not. -/
theorem updatePairs_sync_convergence_witness :
    updatePairs
        ⟨⟨["BTC".data], []⟩, ⟨[], []⟩, ⟨"BTC".data, []⟩, ⟨[], []⟩⟩
        ["eth".data, "btc".data] .spot false true
      = .ok (replaceTarget
          ⟨⟨["BTC".data], []⟩, ⟨[], []⟩, ⟨"BTC".data, []⟩, ⟨[], []⟩⟩
          .spot false (normalizedFetch ["eth".data, "btc".data])) ∧
    updatePairs
        ⟨⟨["BTC".data], []⟩, ⟨[], []⟩, ⟨"BTC".data, []⟩, ⟨[], []⟩⟩
        ["eth".data, "btc".data] .spot false false
      = .ok (replaceTarget
          ⟨⟨["BTC".data], []⟩, ⟨[], []⟩, ⟨"BTC".data, []⟩, ⟨[], []⟩⟩
          .spot false (normalizedFetch ["eth".data, "btc".data])) := by
  have h := updatePairs_sync_convergence
    ⟨⟨["BTC".data], []⟩, ⟨[], []⟩, ⟨"BTC".data, []⟩, ⟨[], []⟩⟩
    ["eth".data, "btc".data] .spot false (by decide) (by decide)
  refine ⟨h.1, h.2.2 ?_⟩
  intro hall
  have hm := (hall ("ETH".data)).1 (by decide)
  exact absurd hm (by decide)

/-- C10: the empty-product-list error occurs exactly when the input sequence
is empty; a non-empty input of empty strings normalizes to the empty product
list and, when the stored target set is non-empty, succeeds while replacing
the stored set (and its persisted config copy) with the empty set. -/
theorem updatePairs_empty_input_edge (s : PairState) (F G : List Str)
    (assetType : AssetTy) (enabled force : Bool)
    (hne : F ≠ []) (hemp : ∀ x ∈ F, x = ([] : Str))
    (hst : targetOf s assetType enabled ≠ []) :
    ((updatePairs s G assetType enabled force).isOk = false ↔ G = []) ∧
    updatePairs s F assetType enabled force
      = .ok (replaceTarget s assetType enabled []) := by
  constructor
  · constructor
    · intro hok
      by_contra hG
      have hlen : ¬ G.length = 0 := by simpa using hG
      simp only [updatePairs, if_neg hlen] at hok
      by_cases hcond : (force = true ∨
          (findPairDifferences (targetOf s assetType enabled)
            ((splitOnComma (strToUpper (joinStrings G))).filter
              (fun p => ¬ p = []))).1.length > 0 ∨
          (findPairDifferences (targetOf s assetType enabled)
            ((splitOnComma (strToUpper (joinStrings G))).filter
              (fun p => ¬ p = []))).2.length > 0)
      · rw [if_pos hcond] at hok
        simp [Except.isOk, Except.toBool] at hok
      · rw [if_neg hcond] at hok
        simp [Except.isOk, Except.toBool] at hok
    · intro hG
      subst hG
      simp [updatePairs, Except.isOk, Except.toBool]
  · have hlen : ¬ F.length = 0 := by simpa using hne
    have hc : ∀ x ∈ F, ',' ∉ x := by
      intro x hx
      rw [hemp x hx]
      simp
    have hprod := filter_split_upper_join F hne hc
    have hnorm : normalizedFetch F = [] := by
      simp only [normalizedFetch, List.filter_eq_nil_iff]
      intro a ha
      simp only [List.mem_map] at ha
      obtain ⟨y, hy, rfl⟩ := ha
      simp [hemp y hy, strToUpper]
    have hdiff2 : (findPairDifferences (targetOf s assetType enabled) []).2
        = targetOf s assetType enabled := by
      simp [findPairDifferences]
    have hpos : (findPairDifferences (targetOf s assetType enabled) []).2.length > 0 := by
      rw [hdiff2]
      exact List.length_pos.mpr hst
    simp only [updatePairs, if_neg hlen, hprod, hnorm]
    rw [if_pos (Or.inr (Or.inr hpos))]

/-- Witness for C10 at a concrete input: fetched `["", ""]` against stored
enabled-spot `["BTC"]` succeeds and empties the stored set, while the empty
input errors. -/
theorem updatePairs_empty_input_edge_witness :
    (((updatePairs ⟨⟨[], ["BTC".data]⟩, ⟨[], []⟩, ⟨[], "BTC".data⟩, ⟨[], []⟩⟩
        [] .spot true false).isOk = false ↔ ([] : List Str) = []) ∧
      updatePairs ⟨⟨[], ["BTC".data]⟩, ⟨[], []⟩, ⟨[], "BTC".data⟩, ⟨[], []⟩⟩
          [[], []] .spot true false
        = .ok (replaceTarget
            ⟨⟨[], ["BTC".data]⟩, ⟨[], []⟩, ⟨[], "BTC".data⟩, ⟨[], []⟩⟩
            .spot true [])) :=
  updatePairs_empty_input_edge
    ⟨⟨[], ["BTC".data]⟩, ⟨[], []⟩, ⟨[], "BTC".data⟩, ⟨[], []⟩⟩
    [[], []] [] .spot true false (by decide) (by decide) (by decide)

end PairSync

namespace Reconciler

/-!
Model of the Config Reconciler: `(*Base).SetupDefaults` and the helpers it
calls (`SetFeatureDefaults`, `SetAPICredentialDefaults`, `SetHTTPRateLimiter`,
`SetCurrencyPairFormat`, `SetAssetTypes`, `SetAPIURL`, `SetAPIKeys`,
`SetClientProxyAddress`), plus the credential gate
(`AllowAuthenticatedRequest` / `ValidateAPICredentials`) and the pair-format
resolver (`GetPairFormat`).

The running exchange `Base` and the persisted `config.ExchangeConfig` are one
state record here, because `SetupDefaults` stores the supplied config pointer
in `e.Config` and mutates both through it. External collaborators (the
requester transport, the websocket client, base64 decoding, URL parsing) are
modelled from the spec as plain state fields and total functions.
-/

open GCT

abbrev AssetTy := PairSync.AssetTy

/-- One rate limit (`request.RateLimit`): duration and rate. -/
structure RateLimit where
  duration : Int
  rate : Int
deriving DecidableEq

/-- Modelled from the spec: the HTTP transport collaborator
(`request.Requester`), reduced to the knobs the reconciler writes: client
timeout, user agent, the two rate limits and the proxy address. -/
structure RequesterState where
  timeout : Int
  userAgent : Str
  authLimit : RateLimit
  unauthLimit : RateLimit
  proxy : Str
deriving DecidableEq

/-- API credentials (`exchange`/`config` credentials record). -/
structure Credentials where
  key : Str
  secret : Str
  clientID : Str
  pemKey : Str
deriving DecidableEq

/-- Per-adapter credential requirement flags. -/
structure CredentialsValidator where
  requiresKey : Bool
  requiresSecret : Bool
  requiresBase64DecodeSecret : Bool
  requiresClientID : Bool
  requiresPEM : Bool
deriving DecidableEq

/-- Exchange-side endpoint URLs. -/
structure Endpoints where
  url : Str
  urlSecondary : Str
  urlDefault : Str
  urlSecondaryDefault : Str
deriving DecidableEq

/-- Exchange-side API state. -/
structure APIState where
  authenticatedSupport : Bool
  credentials : Credentials
  credentialsValidator : CredentialsValidator
  endpoints : Endpoints
deriving DecidableEq

/-- REST protocol capabilities (`exchange.ProtocolFeatures` and
`config.ProtocolFeaturesConfig`). -/
structure ProtocolFeatures where
  autoPairUpdates : Bool
  tickerBatching : Bool
deriving DecidableEq

/-- Trading capability flags (`exchange.TradingSupported` and
`config.TradingConfig`). -/
structure TradingSupported where
  spot : Bool
  futures : Bool
  margin : Bool
  perpetualSwaps : Bool
  idx : Bool
deriving DecidableEq

/-- Exchange-side supported features. -/
structure FeaturesSupported where
  rest : Bool
  websocket : Bool
  restCapabilities : ProtocolFeatures
  trading : TradingSupported
deriving DecidableEq

/-- Exchange-side enabled features. -/
structure FeaturesEnabled where
  autoPairUpdates : Bool
deriving DecidableEq

/-- Exchange-side feature set. -/
structure Features where
  supports : FeaturesSupported
  enabled : FeaturesEnabled
deriving DecidableEq

/-- A currency-pair format rule (`config.CurrencyPairFormatConfig`). -/
structure PairFormat where
  delimiter : Str
  uppercase : Bool
  separator : Str
  idx : Str
deriving DecidableEq

/-- Exchange-side per-asset pair store with its format rules. -/
structure ExPairStore where
  available : List Str
  enabled : List Str
  requestFormat : PairFormat
  configFormat : PairFormat
deriving DecidableEq

/-- Exchange-side currency-pair state (`exchange.CurrencyPairs`). -/
structure ExCurrencyPairs where
  assetTypes : List AssetTy
  useGlobalPairFormat : Bool
  requestFormat : PairFormat
  configFormat : PairFormat
  spot : ExPairStore
  futures : ExPairStore
  lastUpdated : Int
deriving DecidableEq

/-- Config-side per-asset pair store (`config.CurrencyPairConfig`):
comma-joined pair strings and optional format overrides. -/
structure CfgPairStore where
  available : Str
  enabled : Str
  requestFormat : Option PairFormat
  configFormat : Option PairFormat
deriving DecidableEq

/-- Config-side currency-pair section (`config.CurrencyPairsConfig`). -/
structure CfgCurrencyPairs where
  assetTypes : Str
  requestFormat : Option PairFormat
  configFormat : Option PairFormat
  spot : Option CfgPairStore
  futures : Option CfgPairStore
  lastUpdated : Int
deriving DecidableEq

/-- Config-side supported features (`config.FeaturesSupportedConfig`). -/
structure CfgFeaturesSupported where
  websocket : Bool
  rest : Bool
  restCapabilities : ProtocolFeatures
  trading : TradingSupported
deriving DecidableEq

/-- Config-side enabled features (`config.FeaturesEnabledConfig`). -/
structure CfgFeaturesEnabled where
  autoPairUpdates : Bool
  websocket : Bool
deriving DecidableEq

/-- Config-side feature section (`config.FeaturesConfig`). -/
structure CfgFeatures where
  supports : CfgFeaturesSupported
  enabled : CfgFeaturesEnabled
deriving DecidableEq

/-- Config-side endpoint URLs. -/
structure CfgEndpoints where
  url : Str
  urlSecondary : Str
deriving DecidableEq

/-- Config-side API section. -/
structure CfgAPI where
  authenticatedSupport : Bool
  credentials : Credentials
  credentialsValidator : CredentialsValidator
  endpoints : CfgEndpoints
deriving DecidableEq

/-- Persisted rate-limit overrides (`config.HTTPRateLimitConfig`). -/
structure HTTPRateLimitConfig where
  authenticated : RateLimit
  unauthenticated : RateLimit
deriving DecidableEq

/-- The persisted exchange configuration (`config.ExchangeConfig`), reduced
to the fields `SetupDefaults` reads or writes. -/
structure ExchangeConfig where
  verbose : Bool
  httpTimeout : Int
  httpUserAgent : Str
  proxyAddress : Str
  baseCurrencies : Str
  api : CfgAPI
  httpRateLimiter : Option HTTPRateLimitConfig
  currencyPairs : Option CfgCurrencyPairs
  features : Option CfgFeatures
  supportsAutoPairUpdates : Option Bool
deriving DecidableEq

/-- Modelled from the spec: the websocket collaborator, reduced to the
enabled flag and proxy address the reconciler writes. `none` models a nil
websocket pointer. -/
structure WebsocketState where
  enabled : Bool
  proxy : Str
deriving DecidableEq

/-- The running exchange state (`exchange.Base`), with the persisted config
(`e.Config`, aliasing the `exch` argument of `SetupDefaults`) embedded as the
`cfg` field. `requiresRateLimiter` models the `RequiresRateLimiter` capability
accessor, which is not under `src/`. -/
structure Base where
  enabled : Bool
  loadedByConfig : Bool
  verbose : Bool
  api : APIState
  httpUserAgent : Str
  requester : RequesterState
  requiresRateLimiter : Bool
  features : Features
  currencyPairs : ExCurrencyPairs
  baseCurrencies : List Str
  websocket : Option WebsocketState
  cfg : ExchangeConfig
deriving DecidableEq

/-- Zero value of a config-side pair store (Go `new(CurrencyPairConfig)`). -/
def zeroCfgPairStore : CfgPairStore := ⟨[], [], none, none⟩

/-- Zero value of the config-side pair section (Go
`new(CurrencyPairsConfig)`). -/
def zeroCfgCurrencyPairs : CfgCurrencyPairs := ⟨[], none, none, none, none, 0⟩

/-- Zero value of the config-side feature section. -/
def zeroCfgFeatures : CfgFeatures :=
  ⟨⟨false, false, ⟨false, false⟩, ⟨false, false, false, false, false⟩⟩, ⟨false, false⟩⟩

/-- Modelled from the spec: `config.DefaultAPIKey`, the sentinel "unset"
key. -/
def DefaultAPIKey : Str := "Key".data

/-- Modelled from the spec: `config.DefaultAPISecret`. -/
def DefaultAPISecret : Str := "Secret".data

/-- Modelled from the spec: `config.DefaultAPIClientID`. -/
def DefaultAPIClientID : Str := "ClientID".data

/-- Modelled from the spec: `config.APIURLNonDefaultMessage`, the sentinel
marking a deliberately non-default endpoint URL. -/
def APIURLNonDefaultMessage : Str := "NON_DEFAULT_HTTP_LINK_TO_EXCHANGE_API".data

/-- Modelled from the spec: `common.Base64Decode` (not under `src/`); only
success or failure of the decode matters to the reconciler and validator, so
the decoded payload is abstracted as the input string itself. -/
def base64Decode (s : Str) : Option Str :=
  if s.length % 4 = 0 ∧ s.all (fun c => c.isAlphanum || c == '+' || c == '/' || c == '=') then
    some s
  else
    none

/-- Model of `(*Base).SetHTTPClientTimeout`. -/
def setHTTPClientTimeout (t : Int) (e : Base) : Base :=
  { e with requester := { e.requester with timeout := t } }

/-- Model of `(*Base).SetHTTPClientUserAgent`. -/
def setHTTPClientUserAgent (ua : Str) (e : Base) : Base :=
  { e with requester := { e.requester with userAgent := ua }, httpUserAgent := ua }

/-- Modelled from the spec: the requester's rate-limit accessor
(`GetRateLimit`). -/
def getRateLimit (e : Base) (auth : Bool) : RateLimit :=
  if auth then e.requester.authLimit else e.requester.unauthLimit

/-- Modelled from the spec: the requester's rate-limit setter
(`SetRateLimit`). -/
def setRateLimit (auth : Bool) (r : RateLimit) (e : Base) : Base :=
  if auth then
    { e with requester := { e.requester with authLimit := r } }
  else
    { e with requester := { e.requester with unauthLimit := r } }

/-- Model of `(*Base).SetHTTPRateLimiter`: if required, construct the config
section from the adapter defaults when absent, otherwise restore the
persisted values into the requester. -/
def setHTTPRateLimiter (e : Base) : Base :=
  if e.requiresRateLimiter then
    match e.cfg.httpRateLimiter with
    | none =>
      { e with cfg := { e.cfg with
          httpRateLimiter := some ⟨getRateLimit e true, getRateLimit e false⟩ } }
    | some r => setRateLimit false r.unauthenticated (setRateLimit true r.authenticated e)
  else e

/-- Model of `(*Base).SetCurrencyPairFormat`: allocate missing config
sections and fill any unset format slot from the adapter defaults
(global-format or per-asset). -/
def setCurrencyPairFormat (e : Base) : Base :=
  let cp0 := e.cfg.currencyPairs.getD zeroCfgCurrencyPairs
  let cp1 :=
    if e.features.supports.trading.spot ∧ cp0.spot.isNone then
      { cp0 with spot := some zeroCfgPairStore }
    else cp0
  let cp2 :=
    if e.currencyPairs.useGlobalPairFormat then
      let cpa :=
        if cp1.requestFormat.isNone then
          { cp1 with requestFormat := some e.currencyPairs.requestFormat }
        else cp1
      if cpa.configFormat.isNone then
        { cpa with configFormat := some e.currencyPairs.configFormat }
      else cpa
    else
      if e.features.supports.trading.spot then
        let sp0 := cp1.spot.getD zeroCfgPairStore
        let sp1 :=
          if sp0.configFormat.isNone then
            { sp0 with configFormat := some e.currencyPairs.spot.configFormat }
          else sp0
        let sp2 :=
          if sp1.requestFormat.isNone then
            { sp1 with requestFormat := some e.currencyPairs.spot.requestFormat }
          else sp1
        { cp1 with spot := some sp2 }
      else cp1
  { e with cfg := { e.cfg with currencyPairs := some cp2 } }

/-- String form of an asset type (`assets` package, not under `src/`). -/
def assetToStr : AssetTy → Str
  | .spot => "spot".data
  | .futures => "futures".data

/-- Model of `AssetTypes.JoinToString(",")`. -/
def joinToString (l : List AssetTy) : Str := joinStrings (l.map assetToStr)

/-- Model of `(*Base).IsAssetTypeSupported`. -/
def isAssetTypeSupported (e : Base) (a : AssetTy) : Bool :=
  e.currencyPairs.assetTypes.contains a

/-- Model of `(*Base).SetAssetTypes`: sync the comma-joined asset-type list
into the config, allocating a futures section on a change when futures are
supported. -/
def setAssetTypes (e : Base) : Base :=
  let cp := e.cfg.currencyPairs.getD zeroCfgCurrencyPairs
  let j := joinToString e.currencyPairs.assetTypes
  if cp.assetTypes = [] then
    { e with cfg := { e.cfg with currencyPairs := some { cp with assetTypes := j } } }
  else
    if cp.assetTypes ≠ j then
      let cp2 := { cp with assetTypes := j }
      let cp3 :=
        if isAssetTypeSupported e .futures then
          { cp2 with futures := some zeroCfgPairStore }
        else cp2
      { e with cfg := { e.cfg with currencyPairs := some cp3 } }
    else e

/-- Model of `(*Base).SetFeatureDefaults` (exchange.go lines 94-157). On a
missing config Features section it builds one from the capability defaults
(honouring the legacy `SupportsAutoPairUpdates` field); otherwise it syncs the
support flags from the capabilities — including the line that compares the
AutoPairUpdates capability against the persisted TickerBatching flag and
assigns the AutoPairUpdates capability to it — and takes the enabled
auto-pair-updates flag from the persisted config. -/
def setFeatureDefaults (now : Int) (e : Base) : Base :=
  match e.cfg.features with
  | none =>
    let s0 : CfgFeatures :=
      { supports :=
          { websocket := e.features.supports.websocket
            rest := e.features.supports.rest
            restCapabilities :=
              { autoPairUpdates := e.features.supports.restCapabilities.autoPairUpdates
                tickerBatching := false }
            trading := e.features.supports.trading }
        enabled := { autoPairUpdates := false, websocket := false } }
    match e.cfg.supportsAutoPairUpdates with
    | some v =>
      let s1 := { s0 with
        supports := { s0.supports with
          restCapabilities := { s0.supports.restCapabilities with autoPairUpdates := v } }
        enabled := { s0.enabled with autoPairUpdates := v } }
      { e with cfg := { e.cfg with features := some s1, supportsAutoPairUpdates := none } }
    | none =>
      let s1 := { s0 with
        supports := { s0.supports with
          restCapabilities := { s0.supports.restCapabilities with
            autoPairUpdates := e.features.supports.restCapabilities.autoPairUpdates } }
        enabled := { s0.enabled with
          autoPairUpdates := e.features.supports.restCapabilities.autoPairUpdates } }
      if ¬ e.features.supports.restCapabilities.autoPairUpdates then
        { e with
          cfg := { e.cfg with
            features := some s1
            supportsAutoPairUpdates := none
            currencyPairs := e.cfg.currencyPairs.map (fun cp => { cp with lastUpdated := now }) }
          currencyPairs := { e.currencyPairs with lastUpdated := now } }
      else
        { e with cfg := { e.cfg with features := some s1, supportsAutoPairUpdates := none } }
  | some f =>
    let st1 := { f.supports with trading := e.features.supports.trading }
    let stp :=
      if e.features.supports.restCapabilities.autoPairUpdates ≠ st1.restCapabilities.autoPairUpdates then
        let st2 := { st1 with restCapabilities := { st1.restCapabilities with
          autoPairUpdates := e.features.supports.restCapabilities.autoPairUpdates } }
        if ¬ e.features.supports.restCapabilities.autoPairUpdates then
          (st2, e.cfg.currencyPairs.map (fun cp => { cp with lastUpdated := now }))
        else (st2, e.cfg.currencyPairs)
      else (st1, e.cfg.currencyPairs)
    let st3 := if e.features.supports.rest ≠ stp.1.rest then
        { stp.1 with rest := e.features.supports.rest } else stp.1
    let st4 :=
      if e.features.supports.restCapabilities.autoPairUpdates ≠ st3.restCapabilities.tickerBatching then
        { st3 with restCapabilities := { st3.restCapabilities with
          tickerBatching := e.features.supports.restCapabilities.autoPairUpdates } }
      else st3
    let st5 := if e.features.supports.websocket ≠ st4.websocket then
        { st4 with websocket := e.features.supports.websocket } else st4
    { e with
      cfg := { e.cfg with
        features := some { f with supports := st5 }
        currencyPairs := stp.2 }
      features := { e.features with enabled := { e.features.enabled with
        autoPairUpdates := f.enabled.autoPairUpdates } } }

/-- Model of `(*Base).SetAPICredentialDefaults`: the adapter's hard-coded
requirement flags overwrite the persisted ones. -/
def setAPICredentialDefaults (e : Base) : Base :=
  let cv := e.cfg.api.credentialsValidator
  let v := e.api.credentialsValidator
  let cv1 := if cv.requiresKey ≠ v.requiresKey then
      { cv with requiresKey := v.requiresKey } else cv
  let cv2 := if cv1.requiresSecret ≠ v.requiresSecret then
      { cv1 with requiresSecret := v.requiresSecret } else cv1
  let cv3 := if cv2.requiresBase64DecodeSecret ≠ v.requiresBase64DecodeSecret then
      { cv2 with requiresBase64DecodeSecret := v.requiresBase64DecodeSecret } else cv2
  let cv4 := if cv3.requiresClientID ≠ v.requiresClientID then
      { cv3 with requiresClientID := v.requiresClientID } else cv3
  let cv5 := if cv4.requiresPEM ≠ v.requiresPEM then
      { cv4 with requiresPEM := v.requiresPEM } else cv4
  { e with cfg := { e.cfg with api := { e.cfg.api with credentialsValidator := cv5 } } }

/-- Error message of `SetAPIURL` on empty endpoint URLs. -/
def setAPIURLErrMsg : Str := "SetAPIURL error. URL vals are empty".data

/-- Model of `(*Base).SetAPIURL` (exchange.go lines 667-678): error when
either persisted URL is empty, otherwise copy each persisted URL into the
running state unless it is the non-default sentinel. -/
def setAPIURL (e : Base) : Base × Option Str :=
  if e.cfg.api.endpoints.url = [] ∨ e.cfg.api.endpoints.urlSecondary = [] then
    (e, some setAPIURLErrMsg)
  else
    let e1 :=
      if e.cfg.api.endpoints.url ≠ APIURLNonDefaultMessage then
        { e with api := { e.api with endpoints := { e.api.endpoints with
          url := e.cfg.api.endpoints.url } } }
      else e
    let e2 :=
      if e1.cfg.api.endpoints.urlSecondary ≠ APIURLNonDefaultMessage then
        { e1 with api := { e1.api with endpoints := { e1.api.endpoints with
          urlSecondary := e1.cfg.api.endpoints.urlSecondary } } }
      else e1
    (e2, none)

/-- Model of `(*Base).SetAPIKeys`: store key and client ID; store the secret,
base64-decoding it first when required, and drop authenticated support when
the decode fails (the Go nil byte slice becomes the empty secret). -/
def setAPIKeys (apiKey apiSecret clientID : Str) (e : Base) : Base :=
  if e.api.credentialsValidator.requiresBase64DecodeSecret then
    match base64Decode apiSecret with
    | none =>
      { e with api := { e.api with
                          authenticatedSupport := false,
                          credentials := { e.api.credentials with
                                             key := apiKey,
                                             clientID := clientID,
                                             secret := [] } } }
    | some d =>
      { e with api := { e.api with
                          credentials := { e.api.credentials with
                                             key := apiKey,
                                             clientID := clientID,
                                             secret := d } } }
  else
    { e with api := { e.api with
                        credentials := { e.api.credentials with
                                           key := apiKey,
                                           clientID := clientID,
                                           secret := apiSecret } } }

/-- Model of `(*Base).SetClientProxyAddress`. Modelled from the spec: URL
parsing of the transport collaborator is abstracted, every non-empty address
is applied to the requester and, when present, the websocket client. -/
def setClientProxyAddress (addr : Str) (e : Base) : Base :=
  if addr ≠ [] then
    { e with requester := { e.requester with proxy := addr },
             websocket := e.websocket.map (fun w => { w with proxy := addr }) }
  else e

/-- `exchange.DefaultHTTPTimeout` (15 seconds; the unit is abstract, only
positivity matters). -/
def DefaultHTTPTimeout : Int := 15

/-- Statements `e.Enabled = true; e.LoadedByConfig = true; e.Config = exch;
e.Verbose = exch.Verbose` of `SetupDefaults`. -/
def stepEnableAndConfig (exch : ExchangeConfig) (e0 : Base) : Base :=
  { e0 with
      enabled := true,
      loadedByConfig := true,
      cfg := exch,
      verbose := exch.verbose }

/-- Statement `e.API.AuthenticatedSupport = exch.API.AuthenticatedSupport`
(after `e.Config = exch`, the config and `exch` are one object, so the source
read of `exch` is a read of `e.cfg`). -/
def stepAuthSupport (e : Base) : Base :=
  { e with api := { e.api with
      authenticatedSupport := e.cfg.api.authenticatedSupport } }

/-- The conditional `SetAPIKeys` call of `SetupDefaults`: key and secret come
from the supplied config, the client ID from the running state. -/
def stepAPIKeys (e : Base) : Base :=
  if e.api.authenticatedSupport then
    setAPIKeys e.cfg.api.credentials.key e.cfg.api.credentials.secret
      e.api.credentials.clientID e
  else e

/-- The HTTP-timeout statement of `SetupDefaults`: a non-positive persisted
timeout is replaced by the default in the config (without touching the
client); a positive one is pushed into the HTTP client. -/
def stepTimeout (e : Base) : Base :=
  if e.cfg.httpTimeout ≤ 0 then
    { e with cfg := { e.cfg with httpTimeout := DefaultHTTPTimeout } }
  else
    setHTTPClientTimeout e.cfg.httpTimeout e

/-- The `SetHTTPClientUserAgent(exch.HTTPUserAgent)` call. -/
def stepUserAgent (e : Base) : Base :=
  setHTTPClientUserAgent e.cfg.httpUserAgent e

/-- The `SetClientProxyAddress(exch.ProxyAddress)` call. -/
def stepProxy (e : Base) : Base :=
  setClientProxyAddress e.cfg.proxyAddress e

/-- Statement `e.BaseCurrencies = common.SplitStrings(exch.BaseCurrencies, ",")`. -/
def stepBaseCurrencies (e : Base) : Base :=
  { e with baseCurrencies := splitOnComma e.cfg.baseCurrencies }

/-- The spot available/enabled pair split of `SetupDefaults`. -/
def stepSpotPairs (e : Base) : Base :=
  if e.features.supports.trading.spot then
    { e with currencyPairs := { e.currencyPairs with spot := { e.currencyPairs.spot with
        available := splitOnComma
          (((e.cfg.currencyPairs.getD zeroCfgCurrencyPairs).spot.getD zeroCfgPairStore).available),
        enabled := splitOnComma
          (((e.cfg.currencyPairs.getD zeroCfgCurrencyPairs).spot.getD zeroCfgPairStore).enabled) } } }
  else e

/-- The futures available/enabled pair split of `SetupDefaults`. -/
def stepFuturesPairs (e : Base) : Base :=
  if e.features.supports.trading.futures then
    { e with currencyPairs := { e.currencyPairs with futures := { e.currencyPairs.futures with
        available := splitOnComma
          (((e.cfg.currencyPairs.getD zeroCfgCurrencyPairs).futures.getD zeroCfgPairStore).available),
        enabled := splitOnComma
          (((e.cfg.currencyPairs.getD zeroCfgCurrencyPairs).futures.getD zeroCfgPairStore).enabled) } } }
  else e

/-- The final websocket-enable propagation of `SetupDefaults`. -/
def stepWebsocketFlag (e : Base) : Base :=
  if e.features.supports.websocket then
    { e with websocket := e.websocket.map (fun w => { w with
        enabled := (e.cfg.features.getD zeroCfgFeatures).enabled.websocket }) }
  else e

/-- Model of `(*Base).SetupDefaults` (exchange.go lines 464-506): the full
reconciliation sequence, one named function per source statement, applied in
source order. The returned `Option Str` is the Go error value — always
`none`, because the source discards the result of `SetAPIURL` and returns
`nil` unconditionally. -/
def setupDefaults (now : Int) (exch : ExchangeConfig) (e0 : Base) : Base × Option Str :=
  (stepWebsocketFlag
    (stepFuturesPairs
      (stepSpotPairs
        (stepBaseCurrencies
          (setHTTPRateLimiter
            (stepProxy
              (setAPICredentialDefaults
                ((setAPIURL
                  (setFeatureDefaults now
                    (setAssetTypes
                      (setCurrencyPairFormat
                        (setHTTPRateLimiter
                          (stepUserAgent
                            (stepTimeout
                              (stepAPIKeys
                                (stepAuthSupport
                                  (stepEnableAndConfig exch e0)))))))))).1))))))), none)

/-- One full `SetupDefaults` call as a state transformer, feeding the state's
own (aliased) config back in as the `exch` argument, exactly as a repeated
call on the same exchange and config would. -/
def runSetup (now : Int) (s : Base) : Base := (setupDefaults now s.cfg s).1

/-- Model of `(*Base).ValidateAPICredentials` (exchange.go lines 518-551). -/
def validateAPICredentials (e : Base) : Bool :=
  if e.api.credentialsValidator.requiresKey ∧
      (e.api.credentials.key = [] ∨ e.api.credentials.key = DefaultAPIKey) then
    false
  else if e.api.credentialsValidator.requiresSecret ∧
      (e.api.credentials.secret = [] ∨ e.api.credentials.secret = DefaultAPISecret) then
    false
  else if e.api.credentialsValidator.requiresPEM ∧
      (e.api.credentials.pemKey = [] ∨ ("JUSTADUMMY".data) <:+: e.api.credentials.pemKey) then
    false
  else if e.api.credentialsValidator.requiresClientID ∧
      (e.api.credentials.clientID = [] ∨ e.api.credentials.clientID = DefaultAPIClientID) then
    false
  else if e.api.credentialsValidator.requiresBase64DecodeSecret ∧
      (base64Decode e.api.credentials.secret).isNone then
    false
  else
    true

/-- Model of `(*Base).AllowAuthenticatedRequest` (exchange.go lines 510-515). -/
def allowAuthenticatedRequest (e : Base) : Bool :=
  if (!e.api.authenticatedSupport && e.loadedByConfig) ||
      (!e.loadedByConfig && !validateAPICredentials e) then
    false
  else
    true

/-- Model of `(*Base).GetPairFormat` (exchange.go lines 345-366): a total
function — the global rules when the adapter uses a global format, otherwise
the spot rules for the spot asset class and the futures rules for anything
else. There is no error path. -/
def getPairFormat (e : Base) (assetType : AssetTy) (requestFormat : Bool) : PairFormat :=
  if e.currencyPairs.useGlobalPairFormat then
    if requestFormat then e.currencyPairs.requestFormat else e.currencyPairs.configFormat
  else
    if assetType = .spot then
      if requestFormat then e.currencyPairs.spot.requestFormat
      else e.currencyPairs.spot.configFormat
    else
      if requestFormat then e.currencyPairs.futures.requestFormat
      else e.currencyPairs.futures.configFormat

/-- A fixed non-trivial pair-format rule used by the sample states. -/
def samplePairFormat : PairFormat := ⟨"-".data, true, [], []⟩

/-- The Go zero value of a pair-format rule. -/
def zeroPairFormat : PairFormat := ⟨[], false, [], []⟩

/-- Exchange-side pair store of the sample states. -/
def sampleExPairStore : ExPairStore := ⟨[], [], samplePairFormat, samplePairFormat⟩

/-- Huobi-like capability set: REST and websocket supported, spot-only
trading, auto pair updates supported, ticker batching NOT supported. -/
def sampleFeatures : Features :=
  ⟨⟨true, true, ⟨true, false⟩, ⟨true, false, false, false, false⟩⟩, ⟨true⟩⟩

/-- A persisted config with all sections present. -/
def sampleCfg : ExchangeConfig :=
  { verbose := true
    httpTimeout := 10
    httpUserAgent := []
    proxyAddress := []
    baseCurrencies := "USD".data
    api := ⟨false, ⟨[], [], [], []⟩, ⟨true, true, false, false, false⟩,
      ⟨"api.example".data, "api2.example".data⟩⟩
    httpRateLimiter := some ⟨⟨10, 100⟩, ⟨10, 200⟩⟩
    currencyPairs := some ⟨"spot".data, some samplePairFormat, some samplePairFormat,
      some ⟨"BTC-USD".data, "BTC-USD".data, none, none⟩, none, 0⟩
    features := some ⟨⟨true, true, ⟨true, false⟩, ⟨true, false, false, false, false⟩⟩,
      ⟨true, false⟩⟩
    supportsAutoPairUpdates := none }

/-- A Huobi-like running exchange state over `sampleCfg`. -/
def sampleBase : Base :=
  { enabled := true
    loadedByConfig := false
    verbose := true
    api := ⟨false, ⟨[], [], [], []⟩, ⟨true, true, false, false, false⟩,
      ⟨"api.example".data, "api2.example".data, "api.example".data, "api2.example".data⟩⟩
    httpUserAgent := []
    requester := ⟨0, [], ⟨10, 100⟩, ⟨10, 200⟩, []⟩
    requiresRateLimiter := true
    features := sampleFeatures
    currencyPairs := ⟨[.spot], true, samplePairFormat, samplePairFormat,
      sampleExPairStore, sampleExPairStore, 0⟩
    baseCurrencies := []
    websocket := some ⟨false, []⟩
    cfg := sampleCfg }

/-- Payload of the reconciled-shape family of states: every data field that
does not drive a branch of `SetupDefaults` is arbitrary; the capability and
section-presence shape is fixed to a Huobi-like reconciled configuration. -/
structure ShapedPayload where
  vb : Bool
  ua : Str
  cbc : Str
  ckey : Str
  csecr : Str
  ccid : Str
  cpem : Str
  k0 : Str
  s0 : Str
  c0 : Str
  p0 : Str
  rqt : Int
  rqua : Str
  rqp : Str
  rqa : RateLimit
  rqu : RateLimit
  ra : RateLimit
  ru : RateLimit
  rf0 : PairFormat
  cf0 : PairFormat
  exrfv : PairFormat
  excfv : PairFormat
  spav : Str
  spen : Str
  exsav : List Str
  exsen : List Str
  exfav : List Str
  exfen : List Str
  bc : List Str
  wse : Bool
  wsp : Str
  lu : Int
  cplu : Int
  legacy : Option Bool
  cua : Str
  fea : Bool
  few : Bool
  seapu : Bool
  en : Bool
  lbc : Bool

/-- The persisted config of the shaped family: fully populated and already
reconciled with the capabilities (note TickerBatching = AutoPairUpdates
capability = true, which is what `SetFeatureDefaults` converges to). -/
def shapedCfg (p : ShapedPayload) : ExchangeConfig :=
  { verbose := p.vb
    httpTimeout := 10
    httpUserAgent := p.cua
    proxyAddress := []
    baseCurrencies := p.cbc
    api := ⟨false, ⟨p.ckey, p.csecr, p.ccid, p.cpem⟩, ⟨true, true, false, false, false⟩,
      ⟨"api.example".data, "api2.example".data⟩⟩
    httpRateLimiter := some ⟨p.ra, p.ru⟩
    currencyPairs := some ⟨"spot".data, some p.rf0, some p.cf0,
      some ⟨p.spav, p.spen, none, none⟩, none, p.cplu⟩
    features := some ⟨⟨true, true, ⟨true, true⟩, ⟨true, false, false, false, false⟩⟩,
      ⟨p.fea, p.few⟩⟩
    supportsAutoPairUpdates := p.legacy }

/-- A Huobi-like running exchange over `shapedCfg`: REST/websocket supported,
spot-only, auto-pair-updates capability on, ticker batching off, rate limiter
required, authenticated support off in the persisted config. -/
def shapedBase (p : ShapedPayload) : Base :=
  { enabled := p.en
    loadedByConfig := p.lbc
    verbose := p.vb
    api := ⟨false, ⟨p.k0, p.s0, p.c0, p.p0⟩, ⟨true, true, false, false, false⟩,
      ⟨"api.example".data, "api2.example".data, "api.example".data, "api2.example".data⟩⟩
    httpUserAgent := p.ua
    requester := ⟨p.rqt, p.rqua, p.rqa, p.rqu, p.rqp⟩
    requiresRateLimiter := true
    features := ⟨⟨true, true, ⟨true, false⟩, ⟨true, false, false, false, false⟩⟩, ⟨p.seapu⟩⟩
    currencyPairs := ⟨[.spot], true, p.exrfv, p.excfv,
      ⟨p.exsav, p.exsen, samplePairFormat, samplePairFormat⟩,
      ⟨p.exfav, p.exfen, samplePairFormat, samplePairFormat⟩, p.lu⟩
    baseCurrencies := p.bc
    websocket := some ⟨p.wse, p.wsp⟩
    cfg := shapedCfg p }

/-- The shaped state after the head of `SetupDefaults` (enable flags, auth
support, API keys, HTTP timeout, user agent). -/
def shapedAfterHead (p : ShapedPayload) : Base :=
  { enabled := true
    loadedByConfig := true
    verbose := p.vb
    api := ⟨false, ⟨p.k0, p.s0, p.c0, p.p0⟩, ⟨true, true, false, false, false⟩,
      ⟨"api.example".data, "api2.example".data, "api.example".data, "api2.example".data⟩⟩
    httpUserAgent := p.cua
    requester := ⟨10, p.cua, p.rqa, p.rqu, p.rqp⟩
    requiresRateLimiter := true
    features := ⟨⟨true, true, ⟨true, false⟩, ⟨true, false, false, false, false⟩⟩, ⟨p.seapu⟩⟩
    currencyPairs := ⟨[.spot], true, p.exrfv, p.excfv,
      ⟨p.exsav, p.exsen, samplePairFormat, samplePairFormat⟩,
      ⟨p.exfav, p.exfen, samplePairFormat, samplePairFormat⟩, p.lu⟩
    baseCurrencies := p.bc
    websocket := some ⟨p.wse, p.wsp⟩
    cfg := shapedCfg p }

/-- The shaped state after the middle of `SetupDefaults` (rate limiter,
pair formats, asset types, feature defaults; also a fixed point of the
endpoint/credential/proxy/rate-limiter block that follows). -/
def shapedCore (p : ShapedPayload) : Base :=
  { shapedAfterHead p with
      requester := ⟨10, p.cua, p.ra, p.ru, p.rqp⟩,
      features := ⟨⟨true, true, ⟨true, false⟩, ⟨true, false, false, false, false⟩⟩, ⟨p.fea⟩⟩ }

/-- The shaped state after one full `SetupDefaults` run. -/
def reconciledShape (p : ShapedPayload) : Base :=
  { shapedCore p with
      baseCurrencies := splitOnComma p.cbc,
      currencyPairs := ⟨[.spot], true, p.exrfv, p.excfv,
        ⟨splitOnComma p.spav, splitOnComma p.spen, samplePairFormat, samplePairFormat⟩,
        ⟨p.exfav, p.exfen, samplePairFormat, samplePairFormat⟩, p.lu⟩,
      websocket := some ⟨p.few, p.wsp⟩ }

theorem shaped_chainA (p : ShapedPayload) :
    stepUserAgent (stepTimeout (stepAPIKeys (stepAuthSupport
      (stepEnableAndConfig (shapedBase p).cfg (shapedBase p)))))
      = shapedAfterHead p := rfl

theorem shaped_chainB (p : ShapedPayload) (n : Int) :
    setFeatureDefaults n (setAssetTypes (setCurrencyPairFormat
      (setHTTPRateLimiter (shapedAfterHead p))))
      = shapedCore p := rfl

theorem shaped_chainC (p : ShapedPayload) :
    setHTTPRateLimiter (stepProxy (setAPICredentialDefaults
      ((setAPIURL (shapedCore p)).1)))
      = shapedCore p := rfl

theorem shaped_chainD (p : ShapedPayload) :
    stepWebsocketFlag (stepFuturesPairs (stepSpotPairs
      (stepBaseCurrencies (shapedCore p))))
      = reconciledShape p := rfl

/-- One `SetupDefaults` run maps a shaped state to its reconciled form. -/
theorem runSetup_shaped (p : ShapedPayload) (n : Int) :
    runSetup n (shapedBase p) = reconciledShape p := by
  simp only [runSetup, setupDefaults]
  rw [shaped_chainA, shaped_chainB, shaped_chainC, shaped_chainD]

theorem reconciled_chainA (p : ShapedPayload) :
    stepUserAgent (stepTimeout (stepAPIKeys (stepAuthSupport
      (stepEnableAndConfig (reconciledShape p).cfg (reconciledShape p)))))
      = reconciledShape p := rfl

theorem reconciled_chainB (p : ShapedPayload) (n : Int) :
    setFeatureDefaults n (setAssetTypes (setCurrencyPairFormat
      (setHTTPRateLimiter (reconciledShape p))))
      = reconciledShape p := rfl

theorem reconciled_chainC (p : ShapedPayload) :
    setHTTPRateLimiter (stepProxy (setAPICredentialDefaults
      ((setAPIURL (reconciledShape p)).1)))
      = reconciledShape p := rfl

theorem reconciled_chainD (p : ShapedPayload) :
    stepWebsocketFlag (stepFuturesPairs (stepSpotPairs
      (stepBaseCurrencies (reconciledShape p))))
      = reconciledShape p := rfl

/-- A reconciled shaped state is a fixed point of `SetupDefaults`. -/
theorem runSetup_reconciled (p : ShapedPayload) (n : Int) :
    runSetup n (reconciledShape p) = reconciledShape p := by
  simp only [runSetup, setupDefaults]
  rw [reconciled_chainA, reconciled_chainB, reconciled_chainC, reconciled_chainD]

/-- C2 (counterexample input): a fresh persisted config whose Features
section is absent, as on first-ever setup. -/
def freshBase : Base := { sampleBase with cfg := { sampleCfg with features := none } }

/-- C2 counterexample: on a first-ever setup (no persisted Features section),
running `SetupDefaults` twice does not equal running it once — the second run
rewrites the written-back TickerBatching support flag (to the AutoPairUpdates
capability), among other re-syncs. -/
theorem setupDefaults_not_idempotent_fresh :
    runSetup 0 (runSetup 0 freshBase) ≠ runSetup 0 freshBase := by
  decide

/-- C2 (amended): on an already-reconciled configuration — every section of
the persisted config present, support flags equal to the capabilities with
TickerBatching equal to the AutoPairUpdates capability, positive HTTP
timeout, endpoint URLs present and non-sentinel — `SetupDefaults` is
idempotent: a second run (at any time) reproduces exactly the state of the
first run, for every payload of the reconciled shape family. -/
theorem setupDefaults_idempotent_reconciled (p : ShapedPayload) (n1 n2 : Int) :
    runSetup n2 (runSetup n1 (shapedBase p)) = runSetup n1 (shapedBase p) := by
  rw [runSetup_shaped p n1, runSetup_reconciled p n2]

/-- C5: the authenticated-request gate. `AllowAuthenticatedRequest` returns
true exactly when (loaded-by-config and the authenticated-support flag is
set) or (not loaded-by-config and the credentials validate). -/
theorem allowAuthenticatedRequest_gate (e : Base) :
    allowAuthenticatedRequest e
      = ((e.loadedByConfig && e.api.authenticatedSupport) ||
         (!e.loadedByConfig && validateAPICredentials e)) := by
  unfold allowAuthenticatedRequest
  cases hl : e.loadedByConfig <;> cases ha : e.api.authenticatedSupport <;>
    cases hv : validateAPICredentials e <;> simp [hl, ha, hv]

/-- C3 (failing input): on a Huobi-like adapter (AutoPairUpdates capability
true, TickerBatching capability false) whose persisted config already has a
Features section with TickerBatching false, `SetFeatureDefaults` writes
TickerBatching `true` — the AutoPairUpdates capability — into the config,
not the adapter's TickerBatching capability value `false`. -/
theorem setFeatureDefaults_tickerBatching_bug :
    ((setFeatureDefaults 0 sampleBase).cfg.features.getD
        zeroCfgFeatures).supports.restCapabilities.tickerBatching = true ∧
    sampleBase.features.supports.restCapabilities.tickerBatching = false := by
  constructor
  · rfl
  · rfl

/-- C9 (counterexample): on a spot-only adapter that does not use the global
pair format and has no futures rule configured, `GetPairFormat` for futures
does not fail — it has no error path at all — and returns the zero-valued
format rule. -/
def spotOnlyNonGlobalBase : Base :=
  { sampleBase with currencyPairs := ⟨[.spot], false, samplePairFormat, samplePairFormat,
      sampleExPairStore, ⟨[], [], zeroPairFormat, zeroPairFormat⟩, 0⟩ }

/-- C9 counterexample: resolving the futures pair format on a spot-only
non-global adapter returns the partially-zeroed rule instead of failing. -/
theorem getPairFormat_futures_zero_rule :
    getPairFormat spotOnlyNonGlobalBase .futures true = zeroPairFormat ∧
    getPairFormat spotOnlyNonGlobalBase .futures false = zeroPairFormat := by
  constructor
  · rfl
  · rfl

/-- C9 (amended): `GetPairFormat` never fails; for a non-global adapter it
returns whatever rule is stored for the asset class, which is the zero rule
when that asset class was never configured. -/
theorem getPairFormat_unconfigured_asset (e : Base) (rf : Bool)
    (hg : e.currencyPairs.useGlobalPairFormat = false)
    (hreq : e.currencyPairs.futures.requestFormat = zeroPairFormat)
    (hcfg : e.currencyPairs.futures.configFormat = zeroPairFormat) :
    getPairFormat e .futures rf = zeroPairFormat := by
  cases rf <;> simp [getPairFormat, hg, hreq, hcfg]

/-- Witness for the amended C9 at the concrete spot-only adapter. -/
theorem getPairFormat_unconfigured_asset_witness :
    getPairFormat spotOnlyNonGlobalBase .futures true = zeroPairFormat :=
  getPairFormat_unconfigured_asset spotOnlyNonGlobalBase true rfl rfl rfl

/-- C4 (counterexample): a state whose persisted endpoint URLs are both
empty. -/
def emptyURLBase : Base :=
  { sampleBase with cfg := { sampleCfg with api := { sampleCfg.api with
      endpoints := ⟨[], []⟩ } } }

/-- C4 counterexample: with both persisted endpoint URLs empty,
`SetupDefaults` does NOT fail — the source discards the `SetAPIURL` error
and returns nil. -/
theorem setupDefaults_ignores_url_error :
    emptyURLBase.cfg.api.endpoints.url = [] ∧
    emptyURLBase.cfg.api.endpoints.urlSecondary = [] ∧
    (setupDefaults 0 emptyURLBase.cfg emptyURLBase).2 = none := by
  refine ⟨rfl, rfl, rfl⟩

/-- C4 (amended): `SetAPIURL` — not `SetupDefaults`, which always returns
nil — errors when either persisted endpoint URL is empty (in particular when
both are) and leaves the endpoints untouched; otherwise it copies each
persisted URL into the running state unless that URL is the non-default
sentinel, in which case the previously held (capability default) value is
kept. -/
theorem sentinel_ne_nil : APIURLNonDefaultMessage ≠ [] := by decide

theorem setAPIURL_contract (e : Base) (n : Int) :
    (setupDefaults n e.cfg e).2 = none ∧
    (e.cfg.api.endpoints.url = [] ∨ e.cfg.api.endpoints.urlSecondary = [] →
      setAPIURL e = (e, some setAPIURLErrMsg)) ∧
    (e.cfg.api.endpoints.url ≠ [] ∧ e.cfg.api.endpoints.urlSecondary ≠ [] →
      (setAPIURL e).2 = none ∧
      (setAPIURL e).1.api.endpoints.url
        = (if e.cfg.api.endpoints.url ≠ APIURLNonDefaultMessage then
            e.cfg.api.endpoints.url else e.api.endpoints.url) ∧
      (setAPIURL e).1.api.endpoints.urlSecondary
        = (if e.cfg.api.endpoints.urlSecondary ≠ APIURLNonDefaultMessage then
            e.cfg.api.endpoints.urlSecondary else e.api.endpoints.urlSecondary) ∧
      (setAPIURL e).1.cfg = e.cfg) := by
  refine ⟨rfl, ?_, ?_⟩
  · intro h
    simp [setAPIURL, h]
  · rintro ⟨h1, h2⟩
    have hcond : ¬ (e.cfg.api.endpoints.url = [] ∨ e.cfg.api.endpoints.urlSecondary = []) := by
      push_neg
      exact ⟨h1, h2⟩
    by_cases hs1 : e.cfg.api.endpoints.url = APIURLNonDefaultMessage <;>
      by_cases hs2 : e.cfg.api.endpoints.urlSecondary = APIURLNonDefaultMessage <;>
        simp [setAPIURL, hcond, hs1, hs2, sentinel_ne_nil, h1, h2]

/-- Witness for the amended C4 at the concrete sample state (both URLs set,
neither the sentinel). -/
theorem setAPIURL_contract_witness :
    (setupDefaults 0 sampleBase.cfg sampleBase).2 = none ∧
    (setAPIURL sampleBase).2 = none ∧
    (setAPIURL sampleBase).1.api.endpoints.url
      = (if sampleBase.cfg.api.endpoints.url ≠ APIURLNonDefaultMessage then
          sampleBase.cfg.api.endpoints.url else sampleBase.api.endpoints.url) ∧
    (setAPIURL sampleBase).1.api.endpoints.urlSecondary
      = (if sampleBase.cfg.api.endpoints.urlSecondary ≠ APIURLNonDefaultMessage then
          sampleBase.cfg.api.endpoints.urlSecondary
        else sampleBase.api.endpoints.urlSecondary) ∧
    (setAPIURL sampleBase).1.cfg = sampleBase.cfg := by
  have h := setAPIURL_contract sampleBase 0
  have h3 := h.2.2 ⟨by decide, by decide⟩
  exact ⟨h.1, h3.1, h3.2.1, h3.2.2.1, h3.2.2.2⟩

end Reconciler

namespace GCT

/-- A Go-map-style keyed store as an association list: `findSnap` is map
lookup. -/
def findSnap {κ β : Type} [DecidableEq κ] (m : List (κ × β)) (k : κ) : Option β :=
  match m with
  | [] => none
  | e :: rest => if e.1 = k then some e.2 else findSnap rest k

/-- Go-map assignment `m[k] = v`: overwrite the binding when present,
append it otherwise. -/
def upsert {κ β : Type} [DecidableEq κ] (m : List (κ × β)) (k : κ) (v : β) : List (κ × β) :=
  if (findSnap m k).isSome then
    m.map (fun e => if e.1 = k then (k, v) else e)
  else
    m ++ [(k, v)]

theorem findSnap_map_overwrite {κ β : Type} [DecidableEq κ]
    (m : List (κ × β)) (k : κ) (v : β)
    (h : (findSnap m k).isSome = true) :
    findSnap (m.map (fun e => if e.1 = k then (k, v) else e)) k = some v := by
  induction m with
  | nil => simp [findSnap] at h
  | cons e rest ih =>
    by_cases he : e.1 = k
    · simp [findSnap, he]
    · simp only [findSnap, if_neg he] at h
      simp only [List.map_cons, if_neg he, findSnap]
      exact ih h

theorem findSnap_append_single {κ β : Type} [DecidableEq κ]
    (m : List (κ × β)) (k : κ) (v : β)
    (h : (findSnap m k).isSome = false) :
    findSnap (m ++ [(k, v)]) k = some v := by
  induction m with
  | nil => simp [findSnap]
  | cons e rest ih =>
    by_cases he : e.1 = k
    · simp [findSnap, he] at h
    · simp only [findSnap, if_neg he] at h
      simp only [List.cons_append, findSnap]
      rw [if_neg he]
      exact ih h

theorem findSnap_upsert_self {κ β : Type} [DecidableEq κ]
    (m : List (κ × β)) (k : κ) (v : β) :
    findSnap (upsert m k v) k = some v := by
  unfold upsert
  by_cases hs : (findSnap m k).isSome = true
  · rw [if_pos hs]
    exact findSnap_map_overwrite m k v hs
  · rw [if_neg hs]
    exact findSnap_append_single m k v (by simpa using hs)

theorem findSnap_map_isSome {κ β : Type} [DecidableEq κ]
    (m : List (κ × β)) (k k' : κ) (v : β) :
    (findSnap (m.map (fun e => if e.1 = k' then (k', v) else e)) k).isSome
      = (findSnap m k).isSome := by
  induction m with
  | nil => simp [findSnap]
  | cons e rest ih =>
    by_cases he' : e.1 = k'
    · by_cases he : e.1 = k
      · have hk : k' = k := by rw [← he', he]
        simp [findSnap, he, he', hk]
      · have hk : ¬ k' = k := by
          intro hc
          exact he (by rw [he', hc])
        simp only [List.map_cons, if_pos he', findSnap]
        rw [if_neg hk, if_neg he]
        exact ih
    · simp only [List.map_cons, if_neg he', findSnap]
      by_cases he : e.1 = k
      · simp [he]
      · rw [if_neg he, if_neg he]
        exact ih

theorem findSnap_append_isSome {κ β : Type} [DecidableEq κ]
    (m l : List (κ × β)) (k : κ)
    (h : (findSnap m k).isSome = true) :
    (findSnap (m ++ l) k).isSome = true := by
  induction m with
  | nil => simp [findSnap] at h
  | cons e rest ih =>
    by_cases he : e.1 = k
    · simp [findSnap, he]
    · simp only [findSnap, if_neg he] at h
      simp only [List.cons_append, findSnap]
      rw [if_neg he]
      exact ih h

theorem findSnap_upsert_isSome {κ β : Type} [DecidableEq κ]
    (m : List (κ × β)) (k k' : κ) (v : β)
    (h : (findSnap m k).isSome = true) :
    (findSnap (upsert m k' v) k).isSome = true := by
  unfold upsert
  by_cases hs : (findSnap m k').isSome = true
  · rw [if_pos hs, findSnap_map_isSome]
    exact h
  · rw [if_neg hs]
    exact findSnap_append_isSome m _ k h

end GCT

namespace MarketData

/-!
Model of the market-data cache wrappers: Bithumb's batch `UpdateTicker` /
`FetchTicker` (bithumb_wrapper.go lines 154-184) and Huobi's per-pair
`UpdateOrderbook` / `FetchOrderbook` (huobi wrapper lines 1030-1061). The
`ticker` and `orderbook` cache packages are not under `src/`; their
`ProcessTicker`/`GetTicker` (and orderbook analogues) are modelled from the
spec as a keyed overwrite-on-process, lookup-on-get store. The venue fetches
(`GetAllTickers`, `GetDepth`) are transport collaborators and enter as
`Except`-valued inputs.
-/

open GCT

abbrev AssetTy := PairSync.AssetTy

/-- A canonical currency pair (`pair.CurrencyPair`), reduced to its two
currency items. -/
structure CurrencyPair where
  first : Str
  second : Str
deriving DecidableEq

/-- A ticker snapshot (`ticker.Price`); float fields are carried as integers
since the wrappers only copy them. -/
structure Price where
  pair : CurrencyPair
  ask : Int
  bid : Int
  low : Int
  last : Int
  volume : Int
  high : Int
deriving DecidableEq

/-- One entry of Bithumb's batch ticker response. -/
structure RawTick where
  sellPrice : Int
  buyPrice : Int
  minPrice : Int
  closingPrice : Int
  volume1Day : Int
  maxPrice : Int
deriving DecidableEq

/-- The ticker cache, keyed by (venue, pair, asset class). -/
abbrev TickerStore := List ((Str × CurrencyPair × AssetTy) × Price)

/-- Modelled from the spec: `ticker.ProcessTicker` — overwrite the snapshot
for the key after a successful venue fetch. -/
def processTicker (store : TickerStore) (venue : Str) (p : CurrencyPair)
    (tp : Price) (a : AssetTy) : TickerStore :=
  upsert store (venue, p, a) tp

/-- Error of a ticker-cache miss. -/
def noTickerMsg : Str := "no ticker found".data

/-- Modelled from the spec: `ticker.GetTicker` — pure cache read, error on a
miss, never a network call. -/
def getTicker (store : TickerStore) (venue : Str) (p : CurrencyPair)
    (a : AssetTy) : Except Str Price :=
  match findSnap store (venue, p, a) with
  | some t => .ok t
  | none => .error noTickerMsg

/-- Model of Bithumb's `UpdateTicker`: one batch venue fetch; on success,
map the batch response into a per-pair snapshot for every enabled pair and
process each into the cache, then return the cache entry for the requested
pair; on failure return the transport error with the cache untouched. -/
def updateTicker (store : TickerStore) (venue : Str)
    (enabled : List CurrencyPair) (fetchAll : Except Str (Str → RawTick))
    (p : CurrencyPair) (a : AssetTy) : Except Str Price × TickerStore :=
  match fetchAll with
  | .error e => (.error e, store)
  | .ok tickers =>
    let store2 := enabled.foldl (fun acc x =>
      processTicker acc venue x
        { pair := x
          ask := (tickers x.first).sellPrice
          bid := (tickers x.first).buyPrice
          low := (tickers x.first).minPrice
          last := (tickers x.first).closingPrice
          volume := (tickers x.first).volume1Day
          high := (tickers x.first).maxPrice } a) store
    (getTicker store2 venue p a, store2)

/-- Model of Bithumb's `FetchTicker`: return the cached snapshot on a hit;
on a miss call `UpdateTicker` (exactly once — the third component counts the
refreshes triggered). -/
def fetchTicker (store : TickerStore) (venue : Str)
    (enabled : List CurrencyPair) (fetchAll : Except Str (Str → RawTick))
    (p : CurrencyPair) (a : AssetTy) : Except Str Price × TickerStore × Nat :=
  match getTicker store venue p a with
  | .ok t => (.ok t, store, 0)
  | .error _ =>
    let r := updateTicker store venue enabled fetchAll p a
    (r.1, r.2, 1)

/-- One order-book level. -/
structure OBItem where
  amount : Int
  price : Int
deriving DecidableEq

/-- An order-book snapshot (`orderbook.Base`), reduced to its level lists. -/
structure OBBase where
  bids : List OBItem
  asks : List OBItem
deriving DecidableEq

/-- Huobi's raw depth response: each level is `[price, amount]`. -/
structure RawDepth where
  bids : List (Int × Int)
  asks : List (Int × Int)
deriving DecidableEq

/-- The order-book cache, keyed by (venue, pair, asset class). -/
abbrev OBStore := List ((Str × CurrencyPair × AssetTy) × OBBase)

/-- Modelled from the spec: `orderbook.ProcessOrderbook`. -/
def processOrderbook (store : OBStore) (venue : Str) (p : CurrencyPair)
    (ob : OBBase) (a : AssetTy) : OBStore :=
  upsert store (venue, p, a) ob

/-- Error of an order-book-cache miss. -/
def noOrderbookMsg : Str := "no orderbook found".data

/-- Modelled from the spec: `orderbook.GetOrderbook` — pure cache read. -/
def getOrderbook (store : OBStore) (venue : Str) (p : CurrencyPair)
    (a : AssetTy) : Except Str OBBase :=
  match findSnap store (venue, p, a) with
  | some ob => .ok ob
  | none => .error noOrderbookMsg

/-- Model of Huobi's `UpdateOrderbook`: one per-pair venue fetch; on success
map each raw `[price, amount]` level 1:1 in venue order into the snapshot,
process it into the cache and return the cache entry; on failure return the
transport error with the cache untouched. -/
def updateOrderbook (store : OBStore) (venue : Str)
    (depth : Except Str RawDepth) (p : CurrencyPair) (a : AssetTy) :
    Except Str OBBase × OBStore :=
  match depth with
  | .error e => (.error e, store)
  | .ok d =>
    let ob : OBBase :=
      { bids := d.bids.map (fun q => { amount := q.2, price := q.1 })
        asks := d.asks.map (fun q => { amount := q.2, price := q.1 }) }
    let store2 := processOrderbook store venue p ob a
    (getOrderbook store2 venue p a, store2)

/-- Model of Huobi's `FetchOrderbook`: cached snapshot on a hit; on a miss
call `UpdateOrderbook` exactly once. -/
def fetchOrderbook (store : OBStore) (venue : Str)
    (depth : Except Str RawDepth) (p : CurrencyPair) (a : AssetTy) :
    Except Str OBBase × OBStore × Nat :=
  match getOrderbook store venue p a with
  | .ok ob => (.ok ob, store, 0)
  | .error _ =>
    let r := updateOrderbook store venue depth p a
    (r.1, r.2, 1)

theorem findSnap_foldl_upsert_preserve {κ β γ : Type} [DecidableEq κ]
    (key : γ → κ) (val : γ → β) :
    ∀ (l : List γ) (store : List (κ × β)) (k : κ),
    (findSnap store k).isSome = true →
    (findSnap (l.foldl (fun acc x => upsert acc (key x) (val x)) store) k).isSome = true := by
  intro l
  induction l with
  | nil =>
    intro store k h
    simpa using h
  | cons x rest ih =>
    intro store k h
    rw [List.foldl_cons]
    exact ih _ k (findSnap_upsert_isSome store k (key x) (val x) h)

theorem findSnap_foldl_upsert_mem {κ β γ : Type} [DecidableEq κ]
    (key : γ → κ) (val : γ → β) :
    ∀ (l : List γ) (store : List (κ × β)) (p : γ), p ∈ l →
    (findSnap (l.foldl (fun acc x => upsert acc (key x) (val x)) store) (key p)).isSome = true := by
  intro l
  induction l with
  | nil =>
    intro store p hp
    simp at hp
  | cons x rest ih =>
    intro store p hp
    rw [List.foldl_cons]
    rcases List.mem_cons.mp hp with h | h
    · subst h
      exact findSnap_foldl_upsert_preserve key val rest _ _
        (by rw [findSnap_upsert_self]; rfl)
    · exact ih _ p h

/-- A successful batch refresh leaves a cache entry for every enabled pair. -/
theorem updateTicker_populates (store : TickerStore) (venue : Str)
    (enabled : List CurrencyPair) (tickers : Str → RawTick)
    (p : CurrencyPair) (a : AssetTy) (hp : p ∈ enabled) :
    (findSnap (updateTicker store venue enabled (.ok tickers) p a).2
      (venue, p, a)).isSome = true := by
  exact findSnap_foldl_upsert_mem (fun x => (venue, x, a))
    (fun x =>
      { pair := x
        ask := (tickers x.first).sellPrice
        bid := (tickers x.first).buyPrice
        low := (tickers x.first).minPrice
        last := (tickers x.first).closingPrice
        volume := (tickers x.first).volume1Day
        high := (tickers x.first).maxPrice }) enabled store p hp

/-- C7: a failed venue fetch propagates the transport error and leaves the
cache untouched — `UpdateTicker` (Bithumb) and `UpdateOrderbook` (Huobi)
return the error before any process step, so a subsequent cache read returns
exactly what it returned before. -/
theorem failed_refresh_leaves_cache (tstore : TickerStore) (obstore : OBStore)
    (venue : Str) (enabled : List CurrencyPair) (p : CurrencyPair)
    (a : AssetTy) (msg : Str) :
    updateTicker tstore venue enabled (.error msg) p a = (.error msg, tstore) ∧
    getTicker (updateTicker tstore venue enabled (.error msg) p a).2 venue p a
      = getTicker tstore venue p a ∧
    updateOrderbook obstore venue (.error msg) p a = (.error msg, obstore) ∧
    getOrderbook (updateOrderbook obstore venue (.error msg) p a).2 venue p a
      = getOrderbook obstore venue p a :=
  ⟨rfl, rfl, rfl, rfl⟩

/-- C8: cache-aside fetch-or-refresh. On a hit, `FetchTicker` /
`FetchOrderbook` return the cached snapshot with the cache unchanged and no
refresh triggered (count 0); on a miss they invoke the update operation
exactly once (count 1), which populates the cache for the requested key (for
the batch ticker path, provided the pair is among the enabled pairs) before
the returned snapshot — which is exactly the fresh cache entry — is
produced. -/
theorem fetch_cache_aside (tstore : TickerStore) (obstore : OBStore)
    (venue : Str) (enabled : List CurrencyPair)
    (fetchAll : Except Str (Str → RawTick)) (tickers : Str → RawTick)
    (depth : Except Str RawDepth) (d : RawDepth)
    (p : CurrencyPair) (a : AssetTy) (t : Price) (ob : OBBase) (m m2 : Str) :
    (getTicker tstore venue p a = .ok t →
      fetchTicker tstore venue enabled fetchAll p a = (.ok t, tstore, 0)) ∧
    (getTicker tstore venue p a = .error m → fetchAll = .ok tickers →
      p ∈ enabled →
      (fetchTicker tstore venue enabled fetchAll p a).2.2 = 1 ∧
      (fetchTicker tstore venue enabled fetchAll p a).1
        = getTicker (fetchTicker tstore venue enabled fetchAll p a).2.1 venue p a ∧
      ((fetchTicker tstore venue enabled fetchAll p a).1).isOk = true) ∧
    (getOrderbook obstore venue p a = .ok ob →
      fetchOrderbook obstore venue depth p a = (.ok ob, obstore, 0)) ∧
    (getOrderbook obstore venue p a = .error m2 → depth = .ok d →
      (fetchOrderbook obstore venue depth p a).2.2 = 1 ∧
      (fetchOrderbook obstore venue depth p a).1
        = getOrderbook (fetchOrderbook obstore venue depth p a).2.1 venue p a ∧
      ((fetchOrderbook obstore venue depth p a).1).isOk = true) := by
  refine ⟨?_, ?_, ?_, ?_⟩
  · intro h
    simp [fetchTicker, h]
  · intro h hf hp
    subst hf
    have hpop := updateTicker_populates tstore venue enabled tickers p a hp
    simp only [updateTicker] at hpop
    obtain ⟨t', ht'⟩ := Option.isSome_iff_exists.mp hpop
    refine ⟨?_, ?_, ?_⟩
    · simp [fetchTicker, h]
    · simp only [fetchTicker, h]
      rfl
    · simp only [fetchTicker, h]
      simp only [updateTicker, getTicker]
      rw [ht']
      rfl
  · intro h
    simp [fetchOrderbook, h]
  · intro h hd
    subst hd
    refine ⟨?_, ?_, ?_⟩
    · simp [fetchOrderbook, h]
    · simp only [fetchOrderbook, h]
      rfl
    · simp only [fetchOrderbook, h]
      simp only [updateOrderbook, getOrderbook, processOrderbook]
      rw [findSnap_upsert_self]
      rfl

/-- Witness for C8: a hit on a one-entry cache returns the cached snapshot
without refreshing; a miss on the empty cache refreshes exactly once and
returns the freshly cached snapshot. -/
theorem fetch_cache_aside_witness :
    (fetchTicker [(("Bithumb".data, ⟨"BTC".data, "KRW".data⟩, PairSync.AssetTy.spot),
        ⟨⟨"BTC".data, "KRW".data⟩, 1, 2, 3, 4, 5, 6⟩)] "Bithumb".data
        [⟨"BTC".data, "KRW".data⟩] (.ok (fun _ => ⟨1, 2, 3, 4, 5, 6⟩))
        ⟨"BTC".data, "KRW".data⟩ .spot
      = (.ok ⟨⟨"BTC".data, "KRW".data⟩, 1, 2, 3, 4, 5, 6⟩,
        [(("Bithumb".data, ⟨"BTC".data, "KRW".data⟩, PairSync.AssetTy.spot),
          ⟨⟨"BTC".data, "KRW".data⟩, 1, 2, 3, 4, 5, 6⟩)], 0)) ∧
    ((fetchTicker [] "Bithumb".data [⟨"BTC".data, "KRW".data⟩]
        (.ok (fun _ => ⟨1, 2, 3, 4, 5, 6⟩)) ⟨"BTC".data, "KRW".data⟩ .spot).2.2 = 1 ∧
      (fetchTicker [] "Bithumb".data [⟨"BTC".data, "KRW".data⟩]
        (.ok (fun _ => ⟨1, 2, 3, 4, 5, 6⟩)) ⟨"BTC".data, "KRW".data⟩ .spot).1
        = getTicker (fetchTicker [] "Bithumb".data [⟨"BTC".data, "KRW".data⟩]
            (.ok (fun _ => ⟨1, 2, 3, 4, 5, 6⟩)) ⟨"BTC".data, "KRW".data⟩ .spot).2.1
            "Bithumb".data ⟨"BTC".data, "KRW".data⟩ .spot ∧
      ((fetchTicker [] "Bithumb".data [⟨"BTC".data, "KRW".data⟩]
        (.ok (fun _ => ⟨1, 2, 3, 4, 5, 6⟩)) ⟨"BTC".data, "KRW".data⟩ .spot).1).isOk = true) ∧
    ((fetchOrderbook [] "Huobi".data (.ok ⟨[(10, 2)], [(11, 3)]⟩)
        ⟨"BTC".data, "USDT".data⟩ .spot).2.2 = 1 ∧
      ((fetchOrderbook [] "Huobi".data (.ok ⟨[(10, 2)], [(11, 3)]⟩)
        ⟨"BTC".data, "USDT".data⟩ .spot).1).isOk = true) := by
  have h1 := (fetch_cache_aside
    [(("Bithumb".data, ⟨"BTC".data, "KRW".data⟩, PairSync.AssetTy.spot),
      ⟨⟨"BTC".data, "KRW".data⟩, 1, 2, 3, 4, 5, 6⟩)] []
    "Bithumb".data [⟨"BTC".data, "KRW".data⟩]
    (.ok (fun _ => ⟨1, 2, 3, 4, 5, 6⟩)) (fun _ => ⟨1, 2, 3, 4, 5, 6⟩)
    (.ok ⟨[(10, 2)], [(11, 3)]⟩) ⟨[(10, 2)], [(11, 3)]⟩
    ⟨"BTC".data, "KRW".data⟩ .spot
    ⟨⟨"BTC".data, "KRW".data⟩, 1, 2, 3, 4, 5, 6⟩
    ⟨[], []⟩ noTickerMsg noOrderbookMsg).1 rfl
  have h2 := (fetch_cache_aside [] []
    "Bithumb".data [⟨"BTC".data, "KRW".data⟩]
    (.ok (fun _ => ⟨1, 2, 3, 4, 5, 6⟩)) (fun _ => ⟨1, 2, 3, 4, 5, 6⟩)
    (.ok ⟨[(10, 2)], [(11, 3)]⟩) ⟨[(10, 2)], [(11, 3)]⟩
    ⟨"BTC".data, "KRW".data⟩ .spot
    ⟨⟨"BTC".data, "KRW".data⟩, 1, 2, 3, 4, 5, 6⟩
    ⟨[], []⟩ noTickerMsg noOrderbookMsg).2.1 rfl rfl (by decide)
  have h3 := (fetch_cache_aside [] []
    "Huobi".data [] (.ok (fun _ => ⟨1, 2, 3, 4, 5, 6⟩)) (fun _ => ⟨1, 2, 3, 4, 5, 6⟩)
    (.ok ⟨[(10, 2)], [(11, 3)]⟩) ⟨[(10, 2)], [(11, 3)]⟩
    ⟨"BTC".data, "USDT".data⟩ .spot
    ⟨⟨"BTC".data, "USDT".data⟩, 1, 2, 3, 4, 5, 6⟩
    ⟨[], []⟩ noTickerMsg noOrderbookMsg).2.2.2 rfl rfl
  exact ⟨h1, h2, h3.1, h3.2.2⟩

end MarketData

namespace CancelAll

/-!
Model of the two `CancelAllOrders` implementations the claim covers.

Bithumb's (bithumb_wrapper.go lines 309-334): collect the open orders of
every enabled pair (aborting on a fetch error), then attempt cancellation of
each collected order, recording failures in the per-order-ID status map, and
return a nil overall error.

Huobi's (huobi wrapper lines 1215-1232): loop over the enabled pairs calling
the batch-cancel endpoint; at the first pair whose call errors, or whose
response reports `FailedCount > 0`, return immediately with that error and
the (still empty) status map; only when every pair's batch cancel fully
succeeds return a nil error.

The venue calls (`GetOrders`, `CancelTrade`, `CancelOpenOrdersBatch`) are
transport collaborators and enter as function-valued inputs; the returned
traces instrument which orders (Bithumb) or pairs (Huobi) were attempted.
-/

open GCT

/-- One open order of the venue response, reduced to the ID the wrapper
uses. -/
structure OrderData where
  orderID : Str
deriving DecidableEq

/-- The collection loop over enabled pairs: orders accumulate in pair order;
a fetch error aborts the whole call. -/
def collectOrders (getOrders : Str → Except Str (List OrderData)) :
    List Str → Except Str (List OrderData)
  | [] => .ok []
  | c :: rest =>
    match getOrders c with
    | .error e => .error e
    | .ok os =>
      match collectOrders getOrders rest with
      | .error e => .error e
      | .ok os2 => .ok (os ++ os2)

/-- The cancellation loop: try every order; a failing `CancelTrade` puts its
reason into the status map under the order ID (Go map assignment); the second
component is the trace of attempted order IDs. -/
def cancelLoop (cancelTrade : Str → Option Str) :
    List OrderData → List (Str × Str) → List (Str × Str) × List Str
  | [], m => (m, [])
  | o :: os, m =>
    let m2 :=
      match cancelTrade o.orderID with
      | some reason => upsert m o.orderID reason
      | none => m
    let r := cancelLoop cancelTrade os m2
    (r.1, o.orderID :: r.2)

/-- Model of Bithumb's `CancelAllOrders`: returns (status map, attempted
order IDs, overall error). -/
def cancelAllOrders (enabledPairs : List Str)
    (getOrders : Str → Except Str (List OrderData))
    (cancelTrade : Str → Option Str) :
    List (Str × Str) × List Str × Option Str :=
  match collectOrders getOrders enabledPairs with
  | .error e => ([], [], some e)
  | .ok allOrders =>
    let r := cancelLoop cancelTrade allOrders []
    (r.1, r.2, none)

theorem findSnap_append_singleton_ne {κ β : Type} [DecidableEq κ]
    (m : List (κ × β)) (k k' : κ) (v : β) (h : ¬ k' = k) :
    findSnap (m ++ [(k, v)]) k' = findSnap m k' := by
  induction m with
  | nil =>
    simp only [List.nil_append, findSnap]
    rw [if_neg (fun hc : k = k' => h hc.symm)]
  | cons e rest ih =>
    simp only [List.cons_append, findSnap]
    by_cases he : e.1 = k'
    · rw [if_pos he, if_pos he]
    · rw [if_neg he, if_neg he]
      exact ih

theorem cancelLoop_spec (cancelTrade : Str → Option Str) :
    ∀ (os : List OrderData) (m : List (Str × Str)),
    (∀ o ∈ os, findSnap m o.orderID = none) →
    (os.map OrderData.orderID).Nodup →
    cancelLoop cancelTrade os m
      = (m ++ os.filterMap (fun o =>
            (cancelTrade o.orderID).map (fun r => (o.orderID, r))),
         os.map OrderData.orderID) := by
  intro os
  induction os with
  | nil =>
    intro m hdisj hnd
    simp [cancelLoop]
  | cons o rest ih =>
    intro m hdisj hnd
    simp only [List.map_cons, List.nodup_cons] at hnd
    have hself : findSnap m o.orderID = none := hdisj o (by simp)
    rcases hc : cancelTrade o.orderID with _ | reason
    · have hrest : ∀ o' ∈ rest, findSnap m o'.orderID = none :=
        fun o' ho' => hdisj o' (List.mem_cons_of_mem _ ho')
      simp only [cancelLoop, hc]
      rw [ih m hrest hnd.2]
      simp [List.filterMap_cons, hc]
    · have hup : upsert m o.orderID reason = m ++ [(o.orderID, reason)] := by
        unfold upsert
        rw [if_neg (by rw [hself]; simp)]
      have hrest : ∀ o' ∈ rest,
          findSnap (m ++ [(o.orderID, reason)]) o'.orderID = none := by
        intro o' ho'
        have hne : ¬ o'.orderID = o.orderID := by
          intro hid
          exact hnd.1 (hid ▸ List.mem_map_of_mem OrderData.orderID ho')
        rw [findSnap_append_singleton_ne m o.orderID o'.orderID reason hne]
        exact hdisj o' (List.mem_cons_of_mem _ ho')
      simp only [cancelLoop, hc, hup]
      rw [ih (m ++ [(o.orderID, reason)]) hrest hnd.2]
      simp [List.filterMap_cons, hc]

/-- The data of Huobi's batch-cancel response the wrapper inspects. -/
structure BatchCancelData where
  failedCount : Int
deriving DecidableEq

/-- Error message of Huobi's `FailedCount > 0` return; the source
interpolates the count into the message, which is abstracted here. -/
def failedToCancelMsg : Str := "orders failed to cancel".data

/-- Model of Huobi's `CancelAllOrders` (huobi wrapper lines 1215-1232),
looping over the enabled pairs: returns (status map — never written, so
always empty —, trace of pairs a batch cancel was attempted for, overall
error). A batch-cancel transport error, or a response with
`FailedCount > 0`, returns immediately without visiting the remaining
pairs. -/
def huobiCancelAllOrders (cancelBatch : Str → Except Str BatchCancelData) :
    List Str → List (Str × Str) × List Str × Option Str
  | [] => ([], [], none)
  | c :: rest =>
    match cancelBatch c with
    | .error e => ([], [c], some e)
    | .ok d =>
      if d.failedCount > 0 then
        ([], [c], some failedToCancelMsg)
      else
        let r := huobiCancelAllOrders cancelBatch rest
        (r.1, c :: r.2.1, r.2.2)

/-- C6 counterexample: the claim fails for the Huobi adapter. With two
enabled pairs whose first batch cancellation reports one failed order,
Huobi's `CancelAllOrders` stops at that first failure (the second pair is
never attempted), returns an EMPTY order-status map (no entry for the failed
order), and an overall error — the opposite of best-effort,
partial-success semantics. -/
theorem huobiCancelAll_aborts_on_failure :
    huobiCancelAllOrders
        (fun c => if c = "BTC-USDT".data then .ok ⟨1⟩ else .ok ⟨0⟩)
        ["BTC-USDT".data, "ETH-USDT".data]
      = ([], ["BTC-USDT".data], some failedToCancelMsg) := by
  rfl

/-- C6 (amended): Bithumb's `CancelAllOrders` is best-effort as claimed —
when every per-pair order fetch succeeds and the collected orders have
distinct IDs, it attempts cancellation of every collected order (the
attempted trace is the full ID list, regardless of individual failures),
returns an order-status map holding exactly one entry per failed order ID,
each mapped to its failure reason, and an overall nil error. Huobi's is
not: at the first enabled pair whose batch cancellation errors, or reports
failed cancellations, it returns immediately with that error and an empty
status map, never attempting the remaining pairs. -/
theorem cancelAll_contract (enabledPairs : List Str)
    (getOrders : Str → Except Str (List OrderData))
    (cancelTrade : Str → Option Str) (allOrders : List OrderData)
    (c : Str) (rest : List Str)
    (cancelBatch : Str → Except Str BatchCancelData)
    (d : BatchCancelData) (em : Str)
    (hfetch : collectOrders getOrders enabledPairs = .ok allOrders)
    (hnodup : (allOrders.map OrderData.orderID).Nodup) :
    (cancelAllOrders enabledPairs getOrders cancelTrade).2.2 = none ∧
    (cancelAllOrders enabledPairs getOrders cancelTrade).2.1
      = allOrders.map OrderData.orderID ∧
    (cancelAllOrders enabledPairs getOrders cancelTrade).1
      = allOrders.filterMap (fun o =>
          (cancelTrade o.orderID).map (fun r => (o.orderID, r))) ∧
    (cancelBatch c = .error em →
      huobiCancelAllOrders cancelBatch (c :: rest) = ([], [c], some em)) ∧
    (cancelBatch c = .ok d → d.failedCount > 0 →
      huobiCancelAllOrders cancelBatch (c :: rest)
        = ([], [c], some failedToCancelMsg)) := by
  have hloop := cancelLoop_spec cancelTrade allOrders []
    (fun o _ => rfl) hnodup
  refine ⟨?_, ?_, ?_, ?_, ?_⟩
  · simp only [cancelAllOrders, hfetch, hloop]
  · simp only [cancelAllOrders, hfetch, hloop]
  · simp only [cancelAllOrders, hfetch, hloop]
    simp
  · intro hb
    simp [huobiCancelAllOrders, hb]
  · intro hb hgt
    simp [huobiCancelAllOrders, hb, hgt]

/-- Witness for the amended C6: Bithumb at the spec's example (three open
orders, cancellation of order 2 fails — one status entry, all three
attempted, nil error) and Huobi at a failing batch (abort with error and
empty map). -/
theorem cancelAll_contract_witness :
    (cancelAllOrders ["BTC".data]
        (fun _ => .ok [⟨"1".data⟩, ⟨"2".data⟩, ⟨"3".data⟩])
        (fun oid => if oid = "2".data then some "cancel failed".data else none)).2.2
      = none ∧
    (cancelAllOrders ["BTC".data]
        (fun _ => .ok [⟨"1".data⟩, ⟨"2".data⟩, ⟨"3".data⟩])
        (fun oid => if oid = "2".data then some "cancel failed".data else none)).2.1
      = ([⟨"1".data⟩, ⟨"2".data⟩, ⟨"3".data⟩] : List OrderData).map OrderData.orderID ∧
    (cancelAllOrders ["BTC".data]
        (fun _ => .ok [⟨"1".data⟩, ⟨"2".data⟩, ⟨"3".data⟩])
        (fun oid => if oid = "2".data then some "cancel failed".data else none)).1
      = ([⟨"1".data⟩, ⟨"2".data⟩, ⟨"3".data⟩] : List OrderData).filterMap (fun o =>
          ((fun oid => if oid = "2".data then some "cancel failed".data else none)
            o.orderID).map (fun r => (o.orderID, r))) ∧
    huobiCancelAllOrders (fun _ => .ok ⟨1⟩) ["BTC-USDT".data, "ETH-USDT".data]
      = ([], ["BTC-USDT".data], some failedToCancelMsg) := by
  have h := cancelAll_contract ["BTC".data]
    (fun _ => .ok [⟨"1".data⟩, ⟨"2".data⟩, ⟨"3".data⟩])
    (fun oid => if oid = "2".data then some "cancel failed".data else none)
    [⟨"1".data⟩, ⟨"2".data⟩, ⟨"3".data⟩]
    "BTC-USDT".data ["ETH-USDT".data] (fun _ => .ok ⟨1⟩) ⟨1⟩ []
    (by rfl) (by decide)
  exact ⟨h.1, h.2.1, h.2.2.1, h.2.2.2.2 rfl (by decide)⟩

end CancelAll
